import Mathlib

/-!
Shallow embedding of `src/plugins/RunCommand/execute_command.py` from the
Lunar_Bot repository, together with theorems settling the frozen claims
about the command-execution helper.

The Python function `execute_command(command, subprocess, timeout, encoding,
errors, shell, input_data, environment)` wraps a single `subprocess.run`
call.  The embedding keeps the source structure:

* `safe_decode`       — the inner decoding helper (source lines 20-31);
* validation          — the `isinstance` check (lines 34-39);
* `normalizeCommand`  — the shlex-splitting block (lines 42-50);
* `encodeInput`       — encoding of a textual `input_data` (lines 64-68);
* `mergedEnv`         — the `os.environ.copy(); env.update(...)` block
                        (lines 70-75);
* `handleRun`         — the `try`/`except` dispatch over the result of
                        `subprocess.run` (lines 77-133).

External behaviour (the codec used by `bytes.decode`, `str.encode`,
`shlex.split`, `subprocess.run` itself and `os.environ`) is packaged in a
`Sys` record, so theorems quantify over every behaviour of those layers.
Python exceptions are modelled with `Except`: a value `.error e` of
`execute_command` means the Python function raises `e` to its caller.
-/

namespace RunCommand

/-- Raw byte strings (the `bytes` values flowing through the helper). -/
abbrev Bytes := List Nat

/-- An element of a command sequence.  Python lists and tuples may hold
values of any type; the helper only ever formats an element into an
f-string, so an element is modelled by the text Python would print for it.
`str` marks a genuine string element, `obj` any non-string element
(e.g. an integer), carrying its printed form. -/
inductive CmdElem where
  | str (s : String)
  | obj (printed : String)
deriving DecidableEq

/-- The text Python interpolates for a command element in an f-string. -/
def CmdElem.display : CmdElem → String
  | .str s => s
  | .obj p => p

/-- The `command` argument: a Python string, list, tuple, or any other
value (e.g. an integer), the latter carrying only its printed form. -/
inductive Command where
  | str (s : String)
  | list (xs : List CmdElem)
  | tuple (xs : List CmdElem)
  | obj (printed : String)
deriving DecidableEq

/-- A Python exception escaping the helper, or raised by one of the
modelled external layers.  `exn` carries `type(e).__name__` and `str(e)`. -/
inductive PyExn where
  | attributeError (msg : String)
  | indexError (msg : String)
  | exn (typeName msg : String)
deriving DecidableEq

/-- `type(e).__name__` of a modelled exception. -/
def PyExn.typeName : PyExn → String
  | .attributeError _ => "AttributeError"
  | .indexError _ => "IndexError"
  | .exn n _ => n

/-- `str(e)` of a modelled exception. -/
def PyExn.details : PyExn → String
  | .attributeError m => m
  | .indexError m => m
  | .exn _ m => m

/-- Result of one `bytes.decode(encoding, errors)` call: success, a
`UnicodeDecodeError`, or any other exception (e.g. `LookupError` for an
unknown encoding or error-handler name). -/
inductive DecResult where
  | ok (s : String)
  | unicodeError (msg : String)
  | otherExn (typeName msg : String)
deriving DecidableEq

/-- Behaviour of the Python codec layer: `dec enc err data` is the result
of `data.decode(enc, errors=err)`. -/
abbrev Codec := String → String → Bytes → DecResult

/-- Result of one `str.encode(encoding)` call. -/
inductive EncResult where
  | ok (b : Bytes)
  | exn (typeName msg : String)
deriving DecidableEq

/-- Behaviour of the Python string-encoding layer: `enc s encoding` is the
result of `s.encode(encoding)`. -/
abbrev Encoder := String → String → EncResult

/-- A single-quote character, used by the printed form of a bytes value. -/
def squote : String := String.singleton (Char.ofNat 39)

/-- Lower-case hexadecimal digit. -/
def hexChar (n : Nat) : Char :=
  if n < 10 then Char.ofNat (48 + n) else Char.ofNat (87 + n)

/-- How Python prints one byte inside the repr of a bytes value. -/
def byteEscape (b : Nat) : String :=
  if b = 9 then "\\t"
  else if b = 10 then "\\n"
  else if b = 13 then "\\r"
  else if b = 92 then "\\\\"
  else if b = 39 then "\\" ++ squote
  else if 32 ≤ b ∧ b ≤ 126 then String.singleton (Char.ofNat b)
  else "\\x" ++ String.singleton (hexChar (b / 16 % 16)) ++ String.singleton (hexChar (b % 16))

/-- `str(data)` for a bytes value `data`: the form `b` followed by the
quoted escaped bytes, e.g. `b` `\xff` between single quotes. -/
def pyBytesRepr (bs : Bytes) : String :=
  "b" ++ squote ++ String.join (bs.map byteEscape) ++ squote

/-- Source lines 20-31, the inner helper `safe_decode(data, enc, err)`:
`None` decodes to the empty string; a `UnicodeDecodeError` from the
configured decode triggers a second decode with `errors="replace"`;
any other exception from the configured decode yields `str(data)`.
An exception raised by the replacement decode happens inside the
`except UnicodeDecodeError` handler, so it escapes `safe_decode`. -/
def safe_decode (dec : Codec) (enc err : String) (data : Option Bytes) : Except PyExn String :=
  match data with
  | none => .ok ""
  | some b =>
    match dec enc err b with
    | .ok s => .ok s
    | .unicodeError _ =>
      match dec enc "replace" b with
      | .ok s => .ok s
      | .unicodeError m => .error (.exn "UnicodeDecodeError" m)
      | .otherExn n m => .error (.exn n m)
    | .otherExn _ _ => .ok (pyBytesRepr b)

/-- Word accumulator for `pySplit`: walk the characters, collecting the
current word in reverse. -/
def pySplitGo : List Char → List Char → List String
  | [], acc => if acc = [] then [] else [String.mk acc.reverse]
  | c :: cs, acc =>
    if c.isWhitespace then
      if acc = [] then pySplitGo cs [] else String.mk acc.reverse :: pySplitGo cs []
    else pySplitGo cs (c :: acc)

/-- Python `str.split()` with no arguments: split on runs of whitespace,
discarding empty pieces. -/
def pySplit (s : String) : List String :=
  pySplitGo s.toList []

/-- Source lines 109 and 116, the name-extraction expression used by the
not-found and permission handlers:
`command[0] if isinstance(command, list) else command.split()[0]`.
A tuple is not a `list`, so it reaches `.split()` and raises
`AttributeError`; an empty list or a string without a whitespace word
raises `IndexError` from the `[0]` index. -/
def extractCmdName : Command → Except PyExn String
  | .list [] => .error (.indexError "list index out of range")
  | .list (x :: _) => .ok x.display
  | .str s =>
    match pySplit s with
    | [] => .error (.indexError "list index out of range")
    | w :: _ => .ok w
  | .tuple _ => .error (.attributeError "tuple object has no attribute split")
  | .obj _ => .error (.attributeError "object has no attribute split")

/-- A process environment, as a mapping from variable names to values. -/
abbrev EnvMap := String → Option String

/-- Python `dict.update` applied to a copy of the base mapping: every
supplied key is overlaid onto the base, later entries winning. -/
def dictUpdate (base : EnvMap) (ov : List (String × String)) : EnvMap :=
  ov.foldl (fun m kv => fun k => if k = kv.1 then some kv.2 else m k) base

/-- The `input_data` argument: Python text or bytes. -/
inductive InputData where
  | str (s : String)
  | bytes (b : Bytes)

/-- The keyword arguments handed to `subprocess.run` (source lines 54-75):
normalized `args`, the timeout, the effective shell flag, the encoded
input bytes, and the optional merged environment.  `stdout`, `stderr` and
`text` are always the same constants and are left implicit. -/
structure RunArgs where
  args : Command
  timeout : Int
  shell : Bool
  input : Option Bytes
  env : Option EnvMap

/-- Behaviour of one `subprocess.run` call: either it returns a completed
process, or it raises one of the exceptions the source handles.  Byte
streams attached to exceptions may be absent (`None`). -/
inductive RunResult where
  | completed (stdout stderr : Option Bytes) (returncode : Int)
  | calledProcessError (stdout stderr : Option Bytes) (returncode : Int) (printed : String)
  | timeoutExpired (stdout stderr : Option Bytes)
  | fileNotFound (msg : String)
  | permissionError (msg : String)
  | keyboardInterrupt
  | otherExn (typeName msg : String)

/-- The result dictionary built by the helper.  `timeout` models the
`"timeout"` key, present (with value `True`) only when the source inserts
it. -/
structure Outcome where
  stdout : Option String
  stderr : String
  returncode : Int
  timeout : Option Bool
deriving DecidableEq

/-- The ambient layers the helper calls into: the codec, the string
encoder, `shlex.split` (whose failure carries the message of the raised
`ValueError`), `subprocess.run`, and the current `os.environ`. -/
structure Sys where
  dec : Codec
  enc : Encoder
  shlexSplit : String → Except String (List String)
  run : RunArgs → RunResult
  osEnviron : EnvMap

/-- The arguments of one call to `execute_command`, in source order with
`subprocess` factored into `Sys`. -/
structure Invocation where
  command : Command
  timeout : Int
  encoding : String
  errors : String
  shell : Bool
  input_data : Option InputData
  environment : Option (List (String × String))

/-- Source line 34: `isinstance(command, (list, tuple, str))`.  Element
types of a list or tuple are not inspected. -/
def isValidCommandType : Command → Bool
  | .obj _ => false
  | _ => true

/-- Source lines 42-50: `use_shell = shell`; a string command with
`shell=False` is tokenized with `shlex.split`; if that raises, the
original string is kept and `use_shell` is forced to `True`. -/
def normalizeCommand (sys : Sys) (inv : Invocation) : Command × Bool :=
  match inv.command with
  | .str s =>
    if inv.shell then (.str s, inv.shell)
    else
      match sys.shlexSplit s with
      | .ok toks => (.list (toks.map CmdElem.str), inv.shell)
      | .error _ => (.str s, true)
  | c => (c, inv.shell)

/-- Source lines 64-68: a textual `input_data` is encoded with the
configured encoding inside the main `try` block; a raised encoding error
is reported as the pair of its type name and message. -/
def encodeInput (sys : Sys) (inv : Invocation) : Except (String × String) (Option Bytes) :=
  match inv.input_data with
  | none => .ok none
  | some (.bytes b) => .ok (some b)
  | some (.str s) =>
    match sys.enc s inv.encoding with
    | .ok b => .ok (some b)
    | .exn n m => .error (n, m)

/-- Source lines 70-75: when `environment` is supplied, `os.environ` is
copied and the supplied keys are overlaid on the copy. -/
def mergedEnv (sys : Sys) (inv : Invocation) : Option EnvMap :=
  match inv.environment with
  | none => none
  | some ov => some (dictUpdate sys.osEnviron ov)

/-- The `except Exception` catch-all outcome of source lines 128-133. -/
def catchAllOutcome (typeName msg : String) : Outcome :=
  ⟨none, "Unexpected error: " ++ typeName ++ "\nDetails: " ++ msg, -1, none⟩

/-- Everything before `subprocess.run`: validation (lines 34-39),
normalization (lines 42-50), input encoding (lines 64-68) and environment
merging (lines 70-75).  `.error o` means the helper returns the outcome
`o` without spawning a process — either the validation dictionary or, for
an encoding error, the catch-all dictionary produced by
`except Exception`. -/
def prepareRun (sys : Sys) (inv : Invocation) : Except Outcome RunArgs :=
  if isValidCommandType inv.command then
    match encodeInput sys inv with
    | .error (n, m) => .error (catchAllOutcome n m)
    | .ok ib =>
      .ok ⟨(normalizeCommand sys inv).1, inv.timeout, (normalizeCommand sys inv).2, ib,
        mergedEnv sys inv⟩
  else
    .error ⟨none, "Error: command must be a string or list of strings", -2, none⟩

/-- The conditional decodes of the `TimeoutExpired` handler (lines 98-99):
`safe_decode(d) if d is not None else ""`. -/
def decodeOrEmpty (sys : Sys) (inv : Invocation) (d : Option Bytes) : Except PyExn String :=
  match d with
  | none => .ok ""
  | some b => safe_decode sys.dec inv.encoding inv.errors (some b)

/-- Source lines 77-133: the body of the `try` block from the
`subprocess.run` call on, together with all `except` clauses.  Exceptions
raised inside an `except` handler (a decode failure, or the
name-extraction expression on a tuple or empty command) are not caught by
the sibling clauses and escape as `.error`. -/
def handleRun (sys : Sys) (inv : Invocation) (args : RunArgs) : RunResult → Except PyExn Outcome
  | .completed so se rc =>
    match safe_decode sys.dec inv.encoding inv.errors so with
    | .error e => .ok (catchAllOutcome e.typeName e.details)
    | .ok sout =>
      match safe_decode sys.dec inv.encoding inv.errors se with
      | .error e => .ok (catchAllOutcome e.typeName e.details)
      | .ok serr => .ok ⟨some sout, serr, rc, none⟩
  | .calledProcessError so se rc printed =>
    match safe_decode sys.dec inv.encoding inv.errors so with
    | .error e => .error e
    | .ok sout =>
      match se with
      | none => .ok ⟨some sout, printed, rc, none⟩
      | some seb =>
        match safe_decode sys.dec inv.encoding inv.errors (some seb) with
        | .error e => .error e
        | .ok serr => .ok ⟨some sout, serr, rc, none⟩
  | .timeoutExpired so se =>
    match decodeOrEmpty sys inv so with
    | .error e => .error e
    | .ok sout =>
      match decodeOrEmpty sys inv se with
      | .error e => .error e
      | .ok serr =>
        .ok ⟨some sout,
          serr ++ "\nCommand timed out after " ++ toString inv.timeout ++ " seconds",
          -3, some true⟩
  | .fileNotFound m =>
    match extractCmdName args.args with
    | .error e => .error e
    | .ok name => .ok ⟨none, "Command not found: " ++ name ++ "\nError: " ++ m, -4, none⟩
  | .permissionError m =>
    match extractCmdName args.args with
    | .error e => .error e
    | .ok name =>
      .ok ⟨none, "Permission denied for command: " ++ name ++ "\nError: " ++ m, -5, none⟩
  | .keyboardInterrupt => .ok ⟨none, "Command execution interrupted by user", -6, none⟩
  | .otherExn n m => .ok (catchAllOutcome n m)

/-- One call of `execute_command`, with its observable effects: the result
(or escaped exception), the arguments of the `subprocess.run` call when
one was made, and the value of `os.environ` after the call (the source
never mutates it — it only copies it). -/
structure ExecTrace where
  result : Except PyExn Outcome
  spawned : Option RunArgs
  osEnvironAfter : EnvMap

/-- The whole of `execute_command` (source lines 1-133), with the spawn
call and the final `os.environ` exposed. -/
def execute_command_traced (sys : Sys) (inv : Invocation) : ExecTrace :=
  match prepareRun sys inv with
  | .error o => ⟨.ok o, none, sys.osEnviron⟩
  | .ok args => ⟨handleRun sys inv args (sys.run args), some args, sys.osEnviron⟩

/-- The return value of `execute_command`: the outcome dictionary, or the
exception the call raises. -/
def execute_command (sys : Sys) (inv : Invocation) : Except PyExn Outcome :=
  (execute_command_traced sys inv).result

/-- A system whose process layer always responds with `rr`, whose codec
always succeeds, whose encoder returns no bytes, and whose `shlex.split`
returns the whole string as one token.  Used for concrete evaluations. -/
def constRunSys (rr : RunResult) : Sys :=
  ⟨fun _ _ _ => .ok "", fun _ _ => .ok [], fun s => .ok [s], fun _ => rr, fun _ => none⟩

/-- A codec behaving like CPython decoding with an unknown error-handler
name: the configured policy raises `LookupError` when the first
undecodable byte is met, while the `replace` policy succeeds with the
replacement character. -/
def lookupErrorCodec : Codec := fun _ err _ =>
  if err = "replace" then .ok "�"
  else .otherExn "LookupError" "unknown error handler name bogus"

/-- A system whose string encoder always raises `LookupError` (an unknown
encoding name), with a quiescent process layer. -/
def encFailSys : Sys :=
  ⟨fun _ _ _ => .ok "", fun _ _ => .exn "LookupError" "unknown encoding bogus",
    fun s => .ok [s], fun _ => .keyboardInterrupt, fun _ => none⟩

/-- A system with a small concrete `os.environ`, used to witness the
environment-merge behaviour. -/
def envWitnessSys : Sys :=
  ⟨fun _ _ _ => .ok "", fun _ _ => .ok [], fun s => .ok [s],
    fun _ => .completed none none 0,
    fun k => if k = "HOME" then some "/root" else none⟩

/-- Claim C1 (code bug).  The contract says no exception ever escapes
`execute_command`, but the not-found handler evaluates
`command.split()[0]` for any non-list command.  A tuple command — which
passes input validation — therefore makes the handler itself raise
`AttributeError`, which no sibling clause catches, so the call raises
instead of returning an outcome dictionary.  Concrete failing input:
`command = (` `missing_tool` `,)` with the process layer reporting
`FileNotFoundError`. -/
theorem tuple_not_found_attribute_error_eval :
    execute_command (constRunSys (.fileNotFound "No such file or directory: missing_tool"))
      ⟨.tuple [.str "missing_tool"], 30, "utf-8", "ignore", false, none, none⟩
      = .error (.attributeError "tuple object has no attribute split") := rfl

/-- Claim C2 (counterexample).  The claim promises `returncode = -2` and
no spawned process for every command that is not a string nor an ordered
sequence of strings.  A list of integers is such a value, yet the
`isinstance(command, (list, tuple, str))` check accepts it: the process
layer is invoked (here raising `TypeError`, as `subprocess.run` does for
non-string argument elements), and the call returns the catch-all
`returncode = -1`, not `-2`. -/
theorem nonstring_list_not_rejected :
    (execute_command_traced
        (constRunSys (.otherExn "TypeError" "expected str instance, int found"))
        ⟨.list [.obj "1", .obj "2"], 30, "utf-8", "ignore", false, none, none⟩).spawned.isSome
        = true ∧
    execute_command (constRunSys (.otherExn "TypeError" "expected str instance, int found"))
      ⟨.list [.obj "1", .obj "2"], 30, "utf-8", "ignore", false, none, none⟩
      = .ok ⟨none, "Unexpected error: TypeError\nDetails: expected str instance, int found",
          -1, none⟩ :=
  ⟨rfl, rfl⟩

/-- Claim C2 (amended).  A command that is neither a string nor a list
nor a tuple (element types are never inspected) is rejected immediately:
`returncode = -2`, `stdout` null, a type-error message in `stderr`, no
process spawned, and `os.environ` untouched. -/
theorem invalid_type_returns_minus_two (sys : Sys) (inv : Invocation) (printed : String)
    (h : inv.command = .obj printed) :
    execute_command_traced sys inv =
      ⟨.ok ⟨none, "Error: command must be a string or list of strings", -2, none⟩, none,
        sys.osEnviron⟩ := by
  simp [execute_command_traced, prepareRun, isValidCommandType, h]

/-- Witness for `invalid_type_returns_minus_two` at the integer command
`42`. -/
theorem invalid_type_returns_minus_two_witness :
    execute_command_traced (constRunSys .keyboardInterrupt)
      ⟨.obj "42", 30, "utf-8", "ignore", false, none, none⟩ =
      ⟨.ok ⟨none, "Error: command must be a string or list of strings", -2, none⟩, none,
        (constRunSys .keyboardInterrupt).osEnviron⟩ :=
  invalid_type_returns_minus_two (constRunSys .keyboardInterrupt)
    ⟨.obj "42", 30, "utf-8", "ignore", false, none, none⟩ "42" rfl

/-- Claim C6 (code bug).  For a missing executable the claim promises
`returncode = -4`, null `stdout`, and a `Command not found:` message
naming the first token of the argument vector for sequence commands.  A
tuple is an ordered sequence accepted by validation, but the handler only
treats `list` values as vectors, so a tuple reaches `command.split()` and
the call raises `AttributeError` instead of returning the promised
outcome.  Concrete failing input: `command = (` `nonexistent_program_xyz`
`,)` with the spawn raising `FileNotFoundError`. -/
theorem not_found_tuple_crash_eval :
    execute_command
      (constRunSys (.fileNotFound "Errno 2 No such file or directory: nonexistent_program_xyz"))
      ⟨.tuple [.str "nonexistent_program_xyz"], 5, "utf-8", "ignore", false, none, none⟩
      = .error (.attributeError "tuple object has no attribute split") := rfl

/-- Every outcome returned without spawning a process is either the
validation dictionary (`-2`) or the input-encoding catch-all (`-1`), and
neither carries the timeout flag. -/
theorem prepareRun_error_shape (sys : Sys) (inv : Invocation) (o : Outcome)
    (h : prepareRun sys inv = .error o) :
    o.timeout = none ∧ (o.returncode = -2 ∨ o.returncode = -1) := by
  rw [prepareRun] at h
  by_cases hv : isValidCommandType inv.command
  · rw [if_pos hv] at h
    cases he : encodeInput sys inv with
    | error nm =>
      obtain ⟨n, m⟩ := nm
      rw [he] at h
      cases h
      exact ⟨rfl, Or.inr rfl⟩
    | ok ib =>
      rw [he] at h
      cases h
  · rw [if_neg hv] at h
    cases h
    exact ⟨rfl, Or.inl rfl⟩

/-- Among all outcome dictionaries the `except` dispatch can return, only
the `TimeoutExpired` branch carries the timeout flag, and there it comes
with `returncode = -3` and value `True`. -/
theorem handleRun_ok_timeout_shape (sys : Sys) (inv : Invocation) (args : RunArgs)
    (rr : RunResult) (o : Outcome) (b : Bool)
    (h : handleRun sys inv args rr = .ok o) (ht : o.timeout = some b) :
    (∃ so se, rr = .timeoutExpired so se) ∧ o.returncode = -3 ∧ b = true := by
  cases rr with
  | completed so se rc =>
    simp only [handleRun] at h
    cases h1 : safe_decode sys.dec inv.encoding inv.errors so with
    | error e => rw [h1] at h; cases h; cases ht
    | ok sout =>
      rw [h1] at h
      cases h2 : safe_decode sys.dec inv.encoding inv.errors se with
      | error e => rw [h2] at h; cases h; cases ht
      | ok serr => rw [h2] at h; cases h; cases ht
  | calledProcessError so se rc printed =>
    simp only [handleRun] at h
    split at h
    · cases h
    · split at h
      · cases h; cases ht
      · split at h
        · cases h
        · cases h; cases ht
  | timeoutExpired so se =>
    simp only [handleRun] at h
    cases h1 : decodeOrEmpty sys inv so with
    | error e => rw [h1] at h; cases h
    | ok s1 =>
      rw [h1] at h
      cases h2 : decodeOrEmpty sys inv se with
      | error e => rw [h2] at h; cases h
      | ok s2 =>
        rw [h2] at h
        cases h
        refine ⟨⟨so, se, rfl⟩, rfl, ?_⟩
        injection ht with hb
        exact hb.symm
  | fileNotFound m =>
    simp only [handleRun] at h
    cases h1 : extractCmdName args.args with
    | error e => rw [h1] at h; cases h
    | ok name => rw [h1] at h; cases h; cases ht
  | permissionError m =>
    simp only [handleRun] at h
    cases h1 : extractCmdName args.args with
    | error e => rw [h1] at h; cases h
    | ok name => rw [h1] at h; cases h; cases ht
  | keyboardInterrupt =>
    simp only [handleRun] at h
    cases h
    cases ht
  | otherExn n m =>
    simp only [handleRun] at h
    cases h
    cases ht

/-- Claim C3 (counterexample).  A child terminated by a signal is
reported by the process layer as a negative exit status (`-N` for signal
`N`), and the completion path passes it through unchanged: here a child
status of `-3` yields an outcome whose `returncode` is `-3` with no
timeout flag, so a negative `returncode` is not reserved to framework
failures and `-3` does not uniquely denote a timeout. -/
theorem negative_child_code_passes_through :
    execute_command (constRunSys (.completed none none (-3)))
        ⟨.list [.str "prog"], 30, "utf-8", "ignore", false, none, none⟩
      = .ok ⟨some "", "", -3, none⟩ := rfl

/-- Claim C3 (amended).  Each framework failure category yields its own
sentinel: `-2` invalid command type, `-1` unexpected error (including an
input-encoding failure), `-3` with the timeout flag for a timeout, `-4`
not found, `-5` permission denied, `-6` interrupted; the completion and
raised-process-error paths return the child status unchanged — so the
sentinels are pairwise distinct, but a negative child status (signal
termination) also surfaces as a negative `returncode`. -/
theorem sentinel_codes_by_category (sys : Sys) (inv : Invocation) (args : RunArgs)
    (hp : prepareRun sys inv = .ok args) :
    (∀ so se rc o, sys.run args = .completed so se rc →
        execute_command sys inv = .ok o → o.returncode = rc ∨ o.returncode = -1) ∧
    (∀ so se rc printed o, sys.run args = .calledProcessError so se rc printed →
        execute_command sys inv = .ok o → o.returncode = rc) ∧
    (∀ so se o, sys.run args = .timeoutExpired so se →
        execute_command sys inv = .ok o → o.returncode = -3 ∧ o.timeout = some true) ∧
    (∀ m o, sys.run args = .fileNotFound m →
        execute_command sys inv = .ok o → o.returncode = -4) ∧
    (∀ m o, sys.run args = .permissionError m →
        execute_command sys inv = .ok o → o.returncode = -5) ∧
    (sys.run args = .keyboardInterrupt →
        execute_command sys inv
          = .ok ⟨none, "Command execution interrupted by user", -6, none⟩) ∧
    (∀ n m, sys.run args = .otherExn n m →
        execute_command sys inv = .ok (catchAllOutcome n m)) ∧
    (∀ (sys2 : Sys) (inv2 : Invocation) (o : Outcome), prepareRun sys2 inv2 = .error o →
        o.returncode = -2 ∨ o.returncode = -1) := by
  have hres : execute_command sys inv = handleRun sys inv args (sys.run args) := by
    rw [execute_command, execute_command_traced, hp]
  refine ⟨?_, ?_, ?_, ?_, ?_, ?_, ?_, ?_⟩
  · intro so se rc o hr ho
    rw [hres, hr] at ho
    simp only [handleRun] at ho
    cases h1 : safe_decode sys.dec inv.encoding inv.errors so with
    | error e => rw [h1] at ho; cases ho; exact Or.inr rfl
    | ok sout =>
      rw [h1] at ho
      cases h2 : safe_decode sys.dec inv.encoding inv.errors se with
      | error e => rw [h2] at ho; cases ho; exact Or.inr rfl
      | ok serr => rw [h2] at ho; cases ho; exact Or.inl rfl
  · intro so se rc printed o hr ho
    rw [hres, hr] at ho
    simp only [handleRun] at ho
    split at ho
    · cases ho
    · split at ho
      · cases ho; rfl
      · split at ho
        · cases ho
        · cases ho; rfl
  · intro so se o hr ho
    rw [hres, hr] at ho
    simp only [handleRun] at ho
    cases h1 : decodeOrEmpty sys inv so with
    | error e => rw [h1] at ho; cases ho
    | ok s1 =>
      rw [h1] at ho
      cases h2 : decodeOrEmpty sys inv se with
      | error e => rw [h2] at ho; cases ho
      | ok s2 => rw [h2] at ho; cases ho; exact ⟨rfl, rfl⟩
  · intro m o hr ho
    rw [hres, hr] at ho
    simp only [handleRun] at ho
    cases h1 : extractCmdName args.args with
    | error e => rw [h1] at ho; cases ho
    | ok name => rw [h1] at ho; cases ho; rfl
  · intro m o hr ho
    rw [hres, hr] at ho
    simp only [handleRun] at ho
    cases h1 : extractCmdName args.args with
    | error e => rw [h1] at ho; cases ho
    | ok name => rw [h1] at ho; cases ho; rfl
  · intro hr
    rw [hres, hr]
    rfl
  · intro n m hr
    rw [hres, hr]
    rfl
  · intro sys2 inv2 o hpe
    exact (prepareRun_error_shape sys2 inv2 o hpe).2

/-- Witness for `sentinel_codes_by_category`: an interrupted call. -/
theorem sentinel_codes_by_category_witness :
    execute_command (constRunSys .keyboardInterrupt)
        ⟨.list [.str "prog2"], 30, "utf-8", "ignore", false, none, none⟩
      = .ok ⟨none, "Command execution interrupted by user", -6, none⟩ :=
  (sentinel_codes_by_category (constRunSys .keyboardInterrupt)
      ⟨.list [.str "prog2"], 30, "utf-8", "ignore", false, none, none⟩
      ⟨.list [.str "prog2"], 30, false, none, none⟩ rfl).2.2.2.2.2.1 rfl

/-- Claim C5 (confirmed).  When the child exceeds the timeout, the call
returns `returncode = -3` with the timeout flag set, `stdout` the decoded
captured output so far (empty when absent) and `stderr` the decoded
captured error stream with the note about the elapsed seconds appended;
conversely, every outcome carrying the timeout flag arose from the
`TimeoutExpired` branch, with `returncode = -3` and flag value `True`. -/
theorem timeout_outcome_flag (sys : Sys) (inv : Invocation) (args : RunArgs)
    (so se : Option Bytes) (s1 s2 : String)
    (hp : prepareRun sys inv = .ok args)
    (hr : sys.run args = .timeoutExpired so se)
    (h1 : decodeOrEmpty sys inv so = .ok s1)
    (h2 : decodeOrEmpty sys inv se = .ok s2) :
    execute_command sys inv =
      .ok ⟨some s1, s2 ++ "\nCommand timed out after " ++ toString inv.timeout ++ " seconds",
        -3, some true⟩ ∧
    (∀ (sys2 : Sys) (inv2 : Invocation) (o : Outcome) (b : Bool),
        execute_command sys2 inv2 = .ok o → o.timeout = some b →
        (∃ args2 so2 se2, prepareRun sys2 inv2 = .ok args2 ∧
          sys2.run args2 = .timeoutExpired so2 se2) ∧ o.returncode = -3 ∧ b = true) := by
  constructor
  · rw [execute_command, execute_command_traced, hp]
    simp [handleRun, hr, h1, h2]
  · intro sys2 inv2 o b hex ht
    rw [execute_command, execute_command_traced] at hex
    cases hpe : prepareRun sys2 inv2 with
    | error o2 =>
      rw [hpe] at hex
      simp only at hex
      injection hex with hoo
      have hnone := (prepareRun_error_shape sys2 inv2 o2 hpe).1
      rw [hoo] at hnone
      rw [hnone] at ht
      cases ht
    | ok args2 =>
      rw [hpe] at hex
      simp only at hex
      obtain ⟨⟨so2, se2, hrr⟩, hrc, hb⟩ :=
        handleRun_ok_timeout_shape sys2 inv2 args2 (sys2.run args2) o b hex ht
      exact ⟨⟨args2, so2, se2, rfl, hrr⟩, hrc, hb⟩

/-- Witness for `timeout_outcome_flag` at a 30-second timeout with no
captured output. -/
theorem timeout_outcome_flag_witness :
    execute_command (constRunSys (.timeoutExpired none none))
        ⟨.list [.str "sleep"], 30, "utf-8", "ignore", false, none, none⟩
      = .ok ⟨some "", "\nCommand timed out after 30 seconds", -3, some true⟩ :=
  (timeout_outcome_flag (constRunSys (.timeoutExpired none none))
      ⟨.list [.str "sleep"], 30, "utf-8", "ignore", false, none, none⟩
      ⟨.list [.str "sleep"], 30, false, none, none⟩ none none "" ""
      rfl rfl rfl rfl).1

/-- Claim C4 (confirmed).  For a string command with the shell flag
false, the helper first attempts shell-lexical tokenization: on success
the spawn receives the token vector with the shell flag still false; if
tokenization raises, the call does not fail but spawns the original
unmodified string in shell mode.  The third part ties the normalized pair
to the arguments of the actual spawn whenever the input-encoding step
succeeds. -/
theorem string_command_tokenization (sys : Sys) (inv : Invocation) (s : String)
    (hc : inv.command = .str s) (hsh : inv.shell = false) :
    (∀ toks, sys.shlexSplit s = .ok toks →
        normalizeCommand sys inv = (.list (toks.map CmdElem.str), false)) ∧
    (∀ m, sys.shlexSplit s = .error m → normalizeCommand sys inv = (.str s, true)) ∧
    (∀ ib, encodeInput sys inv = .ok ib →
        (execute_command_traced sys inv).spawned =
          some ⟨(normalizeCommand sys inv).1, inv.timeout, (normalizeCommand sys inv).2, ib,
            mergedEnv sys inv⟩) := by
  refine ⟨?_, ?_, ?_⟩
  · intro toks ht
    simp [normalizeCommand, hc, hsh, ht]
  · intro m hm
    simp [normalizeCommand, hc, hsh, hm]
  · intro ib hib
    simp [execute_command_traced, prepareRun, isValidCommandType, hc, hib]

/-- Witness for `string_command_tokenization` on the command string
`echo hello`. -/
theorem string_command_tokenization_witness :
    normalizeCommand (constRunSys .keyboardInterrupt)
        ⟨.str "echo hello", 30, "utf-8", "ignore", false, none, none⟩
      = (.list [.str "echo hello"], false) ∧
    (execute_command_traced (constRunSys .keyboardInterrupt)
        ⟨.str "echo hello", 30, "utf-8", "ignore", false, none, none⟩).spawned
      = some ⟨.list [.str "echo hello"], 30, false, none, none⟩ := by
  refine ⟨?_, ?_⟩
  · exact (string_command_tokenization (constRunSys .keyboardInterrupt)
      ⟨.str "echo hello", 30, "utf-8", "ignore", false, none, none⟩ "echo hello" rfl rfl).1
      ["echo hello"] rfl
  · exact (string_command_tokenization (constRunSys .keyboardInterrupt)
      ⟨.str "echo hello", 30, "utf-8", "ignore", false, none, none⟩ "echo hello" rfl rfl).2.2
      none rfl

/-- Claim C9 (confirmed).  When a textual `input_data` fails to encode
with the configured encoding (or the encoding name is unknown), the
exception is raised inside the main `try` block before `subprocess.run`,
so the call returns the catch-all dictionary with `returncode = -1` and
null `stdout` — not the `-2` bad-argument code — and no process is
spawned. -/
theorem input_encode_failure_catch_all (sys : Sys) (inv : Invocation) (s n m : String)
    (hv : isValidCommandType inv.command = true)
    (hi : inv.input_data = some (.str s))
    (he : sys.enc s inv.encoding = .exn n m) :
    execute_command_traced sys inv =
      ⟨.ok ⟨none, "Unexpected error: " ++ n ++ "\nDetails: " ++ m, -1, none⟩, none,
        sys.osEnviron⟩ := by
  simp [execute_command_traced, prepareRun, hv, encodeInput, hi, he, catchAllOutcome]

/-- Witness for `input_encode_failure_catch_all`: encoding the input text
with an unknown encoding name. -/
theorem input_encode_failure_catch_all_witness :
    execute_command_traced encFailSys
        ⟨.str "cat", 30, "bogus", "ignore", false, some (.str "data"), none⟩
      = ⟨.ok ⟨none, "Unexpected error: LookupError\nDetails: unknown encoding bogus", -1, none⟩,
          none, encFailSys.osEnviron⟩ :=
  input_encode_failure_catch_all encFailSys
    ⟨.str "cat", 30, "bogus", "ignore", false, some (.str "data"), none⟩
    "data" "LookupError" "unknown encoding bogus" rfl rfl rfl

/-- Claim C10 (confirmed).  A tuple command passes validation, but when
the spawn reports a not-found or permission error the name-extraction
expression takes the string branch (a tuple is not a `list`) and calls
`.split()`, raising `AttributeError` instead of producing the `-4`/`-5`
outcome; and whenever name extraction succeeds at all, the command was a
list or a string. -/
theorem tuple_name_extraction_attribute_error :
    (∀ (sys : Sys) (inv : Invocation) (xs : List CmdElem) (args : RunArgs) (m : String),
        inv.command = .tuple xs → prepareRun sys inv = .ok args →
        sys.run args = .fileNotFound m ∨ sys.run args = .permissionError m →
        execute_command sys inv
          = .error (.attributeError "tuple object has no attribute split")) ∧
    (∀ (c : Command) (n : String), extractCmdName c = .ok n →
        (∃ s, c = .str s) ∨ (∃ xs, c = .list xs)) := by
  constructor
  · intro sys inv xs args m hc hp hr
    have hargs : args.args = .tuple xs := by
      rw [prepareRun] at hp
      rw [show isValidCommandType inv.command = true by rw [hc]; rfl] at hp
      simp only [if_true] at hp
      cases he : encodeInput sys inv with
      | error nm => rw [he] at hp; cases hp
      | ok ib =>
        rw [he] at hp
        cases hp
        simp [normalizeCommand, hc]
    rw [execute_command, execute_command_traced, hp]
    cases hr with
    | inl h => simp [handleRun, hargs, extractCmdName, h]
    | inr h => simp [handleRun, hargs, extractCmdName, h]
  · intro c n h
    cases c with
    | str s => exact Or.inl ⟨s, rfl⟩
    | list xs => exact Or.inr ⟨xs, rfl⟩
    | tuple xs => exact absurd h (by simp [extractCmdName])
    | obj p => exact absurd h (by simp [extractCmdName])

/-- Witness for `tuple_name_extraction_attribute_error` on a permission
error for a tuple command. -/
theorem tuple_name_extraction_attribute_error_witness :
    execute_command (constRunSys (.permissionError "Errno 13 Permission denied"))
        ⟨.tuple [.str "prog"], 1, "utf-8", "ignore", false, none, none⟩
      = .error (.attributeError "tuple object has no attribute split") :=
  tuple_name_extraction_attribute_error.1
    (constRunSys (.permissionError "Errno 13 Permission denied"))
    ⟨.tuple [.str "prog"], 1, "utf-8", "ignore", false, none, none⟩
    [.str "prog"] ⟨.tuple [.str "prog"], 1, false, none, none⟩
    "Errno 13 Permission denied" rfl rfl (Or.inr rfl)

/-- Claim C7 (counterexample).  The claimed fallback chain is: configured
decode, then replacement-policy decode, then the raw bytes string form.
But the source only falls back to the replacement policy on
`UnicodeDecodeError`; any other exception from the configured decode goes
straight to `str(data)`.  With an unknown error-handler name the
configured decode raises `LookupError` while the replacement decode would
succeed with the replacement character — the code returns `str(data)`,
not the replacement decoding the claim prescribes. -/
theorem decode_fallback_chain_differs :
    safe_decode lookupErrorCodec "utf-8" "bogus" (some [255]) = .ok (pyBytesRepr [255]) ∧
    lookupErrorCodec "utf-8" "replace" [255] = .ok "�" ∧
    pyBytesRepr [255] ≠ "�" :=
  ⟨rfl, rfl, by decide⟩

/-- Claim C7 (amended).  `safe_decode` decodes `None` to the empty
string; a successful configured decode is returned as is; a
`UnicodeDecodeError` falls back to the replacement policy; any other
exception from the configured decode falls back directly to the raw
bytes string form; and when the replacement decode itself raises, that
exception escapes `safe_decode` (so the step is total except on that
path). -/
theorem safe_decode_cases (dec : Codec) (enc err : String) (b : Bytes) :
    safe_decode dec enc err none = .ok "" ∧
    (∀ s, dec enc err b = .ok s → safe_decode dec enc err (some b) = .ok s) ∧
    (∀ m s, dec enc err b = .unicodeError m → dec enc "replace" b = .ok s →
        safe_decode dec enc err (some b) = .ok s) ∧
    (∀ n m, dec enc err b = .otherExn n m →
        safe_decode dec enc err (some b) = .ok (pyBytesRepr b)) ∧
    (∀ m n m2, dec enc err b = .unicodeError m → dec enc "replace" b = .otherExn n m2 →
        safe_decode dec enc err (some b) = .error (.exn n m2)) := by
  refine ⟨rfl, ?_, ?_, ?_, ?_⟩
  · intro s h
    simp [safe_decode, h]
  · intro m s h h2
    simp [safe_decode, h, h2]
  · intro n m h
    simp [safe_decode, h]
  · intro m n m2 h h2
    simp [safe_decode, h, h2]

/-- Witness for `safe_decode_cases`: the configured decode raises a
non-Unicode exception, so the raw bytes string form is returned. -/
theorem safe_decode_cases_witness :
    safe_decode lookupErrorCodec "utf-8" "ignore" (some [255]) = .ok (pyBytesRepr [255]) :=
  (safe_decode_cases lookupErrorCodec "utf-8" "ignore" [255]).2.2.2.1
    "LookupError" "unknown error handler name bogus" rfl

/-- A key that none of the override pairs mention is left at its value in
the base environment by `dict.update`. -/
theorem dictUpdate_not_overridden (base : EnvMap) (ov : List (String × String)) (k : String)
    (h : k ∉ ov.map Prod.fst) : dictUpdate base ov k = base k := by
  induction ov generalizing base with
  | nil => rfl
  | cons kv tl ih =>
    simp only [List.map_cons, List.mem_cons] at h
    push_neg at h
    obtain ⟨h1, h2⟩ := h
    show dictUpdate (fun k2 => if k2 = kv.1 then some kv.2 else base k2) tl k = base k
    rw [ih _ h2]
    simp [h1]

/-- Claim C8 (confirmed).  With `environmentOverrides` supplied, the
spawn receives a copy of the current process environment overlaid with
the supplied keys, every unmentioned variable keeping its original value;
without overrides the spawn receives no environment argument (the child
inherits); and `os.environ` itself is the same mapping after the call. -/
theorem environment_merge_isolated (sys : Sys) (inv : Invocation) (args : RunArgs)
    (hp : prepareRun sys inv = .ok args) :
    (∀ ov, inv.environment = some ov →
        args.env = some (dictUpdate sys.osEnviron ov) ∧
        ∀ k, k ∉ ov.map Prod.fst → dictUpdate sys.osEnviron ov k = sys.osEnviron k) ∧
    (inv.environment = none → args.env = none) ∧
    (execute_command_traced sys inv).osEnvironAfter = sys.osEnviron := by
  have henv : args.env = mergedEnv sys inv := by
    rw [prepareRun] at hp
    by_cases hv : isValidCommandType inv.command
    · rw [if_pos hv] at hp
      cases he : encodeInput sys inv with
      | error nm =>
        obtain ⟨n, m⟩ := nm
        rw [he] at hp
        cases hp
      | ok ib =>
        rw [he] at hp
        cases hp
        rfl
    · rw [if_neg hv] at hp
      cases hp
  refine ⟨?_, ?_, ?_⟩
  · intro ov hov
    constructor
    · rw [henv, mergedEnv, hov]
    · intro k hk
      exact dictUpdate_not_overridden sys.osEnviron ov k hk
  · intro hov
    rw [henv, mergedEnv, hov]
  · rw [execute_command_traced]
    cases hpe : prepareRun sys inv <;> rfl

/-- Witness for `environment_merge_isolated`: one override pair, one
untouched variable. -/
theorem environment_merge_isolated_witness :
    (⟨.list [.str "printenv"], 30, false, none,
        some (dictUpdate envWitnessSys.osEnviron [("PATH", "/custom")])⟩ : RunArgs).env
      = some (dictUpdate envWitnessSys.osEnviron [("PATH", "/custom")]) ∧
    dictUpdate envWitnessSys.osEnviron [("PATH", "/custom")] "HOME"
      = envWitnessSys.osEnviron "HOME" ∧
    (execute_command_traced envWitnessSys
        ⟨.list [.str "printenv"], 30, "utf-8", "ignore", false, none,
          some [("PATH", "/custom")]⟩).osEnvironAfter
      = envWitnessSys.osEnviron := by
  have h := environment_merge_isolated envWitnessSys
    ⟨.list [.str "printenv"], 30, "utf-8", "ignore", false, none, some [("PATH", "/custom")]⟩
    ⟨.list [.str "printenv"], 30, false, none,
      some (dictUpdate envWitnessSys.osEnviron [("PATH", "/custom")])⟩ rfl
  exact ⟨(h.1 [("PATH", "/custom")] rfl).1,
    (h.1 [("PATH", "/custom")] rfl).2 "HOME" (by decide), h.2.2⟩

end RunCommand
